import Mathlib

/-!
Shallow embedding of the proxy-validation and request-dispatch engine of the
`jeet` load generator (Go sources: `config.go`, `stats.go`, `utils.go`, and the
two unnamed files `part_000` = `main.go` and `part_001` = `client.go`).

The embedding has four parts, each translated from the source:

* a sequential, executable model of one validator `worker` (part_000:152-181,
  `testProxy` utils.go:12-37), driven by an oracle for the random candidate
  draws, the probe outcome, and the egress-IP resolution;
* a small-step transition system `SysStep` for the concurrent composition of
  the N validator workers and the N bounded-mode dispatcher lanes
  (`worker` part_000:152-181, `thread` part_000:186-216), with proxy
  identities abstracted away (only counts matter to the claims it serves);
* an effects model of `sendRequest` (part_000:281-351) as a function from the
  outcome of the external calls (request build, `client.Do`, body read) to the
  counter/log/slice effects the function performs;
* executable models of `createProxyClient` (part_001:28-93) and of the query
  string construction `parameters[rand.Intn(len)] + "=" + rng()`
  (part_000:283, `rng` in the request file, lines 72-85).
-/

/-! ## Configuration constants (config.go:11-33) -/

/-- config.go:14 `numOfThreads = 500` (the configured lane count). -/
def numOfThreads : ℕ := 500

/-- config.go:15 `numOfRequests = 10` (requests per lane batch). -/
def numOfRequests : ℕ := 10

/-- config.go:16 `retryCount = 3` (dialer construction retries). -/
def retryCount : ℕ := 3

/-- config.go:24 `fireAndForget = false`. -/
def fireAndForget : Bool := false

/-- config.go:23 `runIndefinitely = false`. -/
def runIndefinitely : Bool := false

/-- config.go:25 `useProxy = true`. -/
def useProxy : Bool := true

/-! ## Sequential model of one validator worker

`worker` (part_000:152-181) with `useProxy = true`: the outer loop checks
`successfulProxyConnections >= numOfThreads` and breaks; otherwise the inner
loop draws random candidates until one is accepted.  For a candidate `p`:

* if `uniqueIPs.Load(p)` hits (the candidate ADDRESS is already a key of the
  map), the inner loop continues with the next draw;
* otherwise `createProxyClient` + `testProxy` run; on failure
  `failedProxyConnections++` and the inner loop continues;
* on success `testProxy` stores the RESOLVED egress IP into `uniqueIPs`
  (utils.go:33-34), then the worker increments
  `successfulProxyConnections`, stores the candidate ADDRESS into `uniqueIPs`
  (part_000:173-174), breaks the inner loop and sends the proxy to
  `proxiesPool` (part_000:179), after which the outer loop re-checks the
  counter.

The model is sequential (one worker): the draws are given as a list (the
random draw oracle), `probeOk p` bundles "createProxyClient succeeded and
testProxy returned true" and `resolve p` is the egress IP the test endpoint
reports for candidate `p`.  The counter is only re-checked after an
acceptance, exactly as in the source (between acceptances the single worker
is the only mutator of the counter).  `proxiesPool` is modelled as the list
of sent proxies; channel blocking does not arise in the runs we evaluate. -/

/-- State of the sequential validator model: the `uniqueIPs` map (as the list
of its keys), the two proxy counters, the proxies sent to `proxiesPool`, and
whether the outer loop has exited. -/
structure WState where
  uniqueIPs : List String
  success : ℕ
  failed : ℕ
  pool : List String
  stopped : Bool
  deriving DecidableEq, Repr

/-- The successful-probe path: `testProxy` stores the resolved IP
(utils.go:34), then `worker` increments the success counter, stores the
candidate address (part_000:173-174) and sends it to the pool (part_000:179).
`List.insert` models `sync.Map.Store` (idempotent key insertion). -/
def acceptProxy (resolve : String → String) (s : WState) (p : String) : WState :=
  { s with
    uniqueIPs := (s.uniqueIPs.insert (resolve p)).insert p
    success := s.success + 1
    pool := s.pool ++ [p] }

/-- The inner candidate loop of `worker` (part_000:161-177), fused with the
outer-loop counter re-check that follows each acceptance (part_000:153-157).
Consumes the draw oracle; an exhausted oracle truncates the run. -/
def workerGo (L : ℕ) (probeOk : String → Bool) (resolve : String → String) :
    List String → WState → WState
  | [], s => s
  | p :: rest, s =>
    if s.uniqueIPs.contains p then
      workerGo L probeOk resolve rest s
    else if probeOk p then
      let s1 := acceptProxy resolve s p
      if L ≤ s1.success then { s1 with stopped := true }
      else workerGo L probeOk resolve rest s1
    else
      workerGo L probeOk resolve rest { s with failed := s.failed + 1 }

/-- One validator worker (part_000:152-181): the initial outer-loop counter
check, then the candidate loop. -/
def worker (L : ℕ) (probeOk : String → Bool) (resolve : String → String)
    (draws : List String) (s : WState) : WState :=
  if L ≤ s.success then { s with stopped := true }
  else workerGo L probeOk resolve draws s

/-- First candidate proxy address of the duplicate-egress scenario. -/
def proxyA : String := "10.0.0.1:1080"

/-- Second candidate proxy address of the duplicate-egress scenario. -/
def proxyB : String := "10.0.0.2:1080"

/-- The shared egress IP both candidates resolve to. -/
def egressIP : String := "203.0.113.7"

/-- Claim C1: with two distinct candidate addresses that both resolve to the
same public egress IP (and whose probes succeed), the validator accepts BOTH
into the proxy pool and increments the success counter twice: the duplicate
check at part_000:165 is `uniqueIPs.Load(proxy)` on the candidate ADDRESS,
so the egress IP recorded by `testProxy` for the first candidate never causes
the second candidate to be skipped.  This contradicts the claim (and the
code's own comment "Check if the proxy IP is unique"): the claimed behavior
is exactly one pool insertion per distinct resolved IP. -/
theorem c1_theorem :
    (fun _ => egressIP) proxyA = (fun _ => egressIP) proxyB ∧
    (worker 2 (fun _ => true) (fun _ => egressIP) [proxyA, proxyB]
        ⟨[], 0, 0, [], false⟩).pool = [proxyA, proxyB] ∧
    (worker 2 (fun _ => true) (fun _ => egressIP) [proxyA, proxyB]
        ⟨[], 0, 0, [], false⟩).success = 2 := by
  refine ⟨rfl, ?_, ?_⟩ <;> decide

/-! ## Small-step model of the concurrent run (bounded mode)

Concurrent composition of the `numOfThreads` validator workers
(part_000:152-181) and the `numOfThreads` bounded-mode dispatcher lanes
(`thread`, part_000:186-216), parametrized by the configured lane count `L`
(`numOfThreads`) and per-lane request count `R` (`numOfRequests`).  Proxy and
client identities are abstracted: `pool` is the number of proxies currently
buffered in the `proxiesPool` channel (capacity `numOfThreads` = `L`,
part_000:31).  `issued` is a ghost counter of `sendRequest` calls;
`total` is `totalRequestCount` (part_000:149, 212).

Worker program points: `top` = outer-loop counter check (part_000:155);
`validating` = inside the inner candidate loop; `inserting` = inner loop
exited with an accepted proxy, `successfulProxyConnections` already
incremented, the send `proxiesPool <- proxy` (part_000:179) still pending;
`done` = loop broken.  Probe failures and duplicate skips keep a worker in
`validating` (they change only `failedProxyConnections` and `uniqueIPs`,
which this model does not track).

Lane program points for `thread`: `idle` = about to receive from
`proxiesPool` (part_000:189); `hasProxy` = proxy received, client creation
pending; `sentBatch` = the batch of `numOfRequests` requests has been sent
(part_000:203-210), the atomic add at part_000:212 still pending; `done` =
returned.  `createProxyClient` failure sends the lane back to `idle`
(part_000:193-196): the proxy is dropped, not retried. -/

/-- Program point of one validator worker goroutine. -/
inductive WorkerSt
  | top | validating | inserting | done
  deriving DecidableEq, Repr

/-- Program point of one bounded-mode dispatcher lane goroutine. -/
inductive LaneSt
  | idle | hasProxy | sentBatch | done
  deriving DecidableEq, Repr

/-- Global state of the concurrent run: worker and lane program points, the
shared counters `successfulProxyConnections` / `failedProxyConnections` /
`totalRequestCount`, the fill level of the `proxiesPool` channel, and the
ghost count of requests issued by `sendRequest` calls. -/
structure Sys where
  workers : List WorkerSt
  lanes : List LaneSt
  success : ℕ
  failed : ℕ
  pool : ℕ
  total : ℕ
  issued : ℕ
  deriving DecidableEq, Repr

/-- Initial state: `startThreads` (part_000:252-262) launches `L` workers and
`L` lanes; all counters zero, channel empty. -/
def initSys (L : ℕ) : Sys :=
  ⟨List.replicate L WorkerSt.top, List.replicate L LaneSt.idle, 0, 0, 0, 0, 0⟩

/-- One interleaving step of the concurrent run.  Out-of-range indices are
excluded by the `getD` defaults (`.done` has no outgoing transition). -/
inductive SysStep (L R : ℕ) : Sys → Sys → Prop
  /-- part_000:155-157 with the check false: the worker enters the inner
  candidate loop. -/
  | wCheckGo (s s' : Sys) (i : ℕ)
      (hw : s.workers.getD i WorkerSt.done = WorkerSt.top)
      (hc : s.success < L)
      (he : s' = { s with workers := s.workers.set i WorkerSt.validating }) :
      SysStep L R s s'
  /-- part_000:155-157 with the check true: the worker breaks the loop. -/
  | wCheckStop (s s' : Sys) (i : ℕ)
      (hw : s.workers.getD i WorkerSt.done = WorkerSt.top)
      (hc : L ≤ s.success)
      (he : s' = { s with workers := s.workers.set i WorkerSt.done }) :
      SysStep L R s s'
  /-- part_000:167-171: the probe of the drawn candidate fails;
  `failedProxyConnections++`, the inner loop continues. -/
  | wRetry (s s' : Sys) (i : ℕ)
      (hw : s.workers.getD i WorkerSt.done = WorkerSt.validating)
      (he : s' = { s with failed := s.failed + 1 }) :
      SysStep L R s s'
  /-- part_000:173-175: a fresh candidate validates;
  `successfulProxyConnections++`, the inner loop breaks and the channel send
  at part_000:179 is now pending. -/
  | wValidate (s s' : Sys) (i : ℕ)
      (hw : s.workers.getD i WorkerSt.done = WorkerSt.validating)
      (he : s' = { s with success := s.success + 1,
                          workers := s.workers.set i WorkerSt.inserting }) :
      SysStep L R s s'
  /-- part_000:179 `proxiesPool <- proxy`: completes only while the channel
  (capacity `numOfThreads` = `L`, part_000:31) has room. -/
  | wInsert (s s' : Sys) (i : ℕ)
      (hw : s.workers.getD i WorkerSt.done = WorkerSt.inserting)
      (hp : s.pool < L)
      (he : s' = { s with pool := s.pool + 1,
                          workers := s.workers.set i WorkerSt.top }) :
      SysStep L R s s'
  /-- part_000:189 `proxy := <-proxiesPool`: completes only while the channel
  is non-empty. -/
  | lTake (s s' : Sys) (j : ℕ)
      (hl : s.lanes.getD j LaneSt.done = LaneSt.idle)
      (hp : 0 < s.pool)
      (he : s' = { s with pool := s.pool - 1,
                          lanes := s.lanes.set j LaneSt.hasProxy }) :
      SysStep L R s s'
  /-- part_000:192-196: `createProxyClient` fails; the lane logs and
  `continue`s, dropping this proxy and returning to the channel receive. -/
  | lClientFail (s s' : Sys) (j : ℕ)
      (hl : s.lanes.getD j LaneSt.done = LaneSt.hasProxy)
      (he : s' = { s with lanes := s.lanes.set j LaneSt.idle }) :
      SysStep L R s s'
  /-- part_000:198-210: the lane sends its batch of exactly `numOfRequests`
  = `R` requests (the loop increments `requestCount` to `R` then breaks). -/
  | lBatch (s s' : Sys) (j : ℕ)
      (hl : s.lanes.getD j LaneSt.done = LaneSt.hasProxy)
      (he : s' = { s with issued := s.issued + R,
                          lanes := s.lanes.set j LaneSt.sentBatch }) :
      SysStep L R s s'
  /-- part_000:212-214: `totalRequestCount += R`; the lane returns if the new
  total has reached `numOfThreads*numOfRequests` = `L*R`, else loops back to
  the channel receive. -/
  | lAdd (s s' : Sys) (j : ℕ)
      (hl : s.lanes.getD j LaneSt.done = LaneSt.sentBatch)
      (he : s' = { s with total := s.total + R,
                          lanes := s.lanes.set j
                            (if L * R ≤ s.total + R then LaneSt.done
                             else LaneSt.idle) }) :
      SysStep L R s s'

/-- Reachability: finitely many interleaving steps. -/
def Reaches (L R : ℕ) : Sys → Sys → Prop :=
  Relation.ReflTransGen (SysStep L R)

/-- A lane currently holds a validated proxy (from the channel receive at
part_000:189 until it returns or loops). -/
def laneHolds (x : LaneSt) : Bool :=
  x == LaneSt.hasProxy || x == LaneSt.sentBatch

/-- Validated proxies in flight: buffered in the `proxiesPool` channel, held
by a dispatcher lane, or in transit between a validator (whose success
counter increment has happened) and the channel. -/
def inFlight (s : Sys) : ℕ :=
  s.pool + s.lanes.countP laneHolds
    + s.workers.countP (fun w => w == WorkerSt.inserting)

/-! ### List helper lemmas for the step analysis -/

/-- `getD` after `set` at the same index, when the index is in range. -/
theorem getD_set_self {α : Type} (l : List α) (i : ℕ) (v d : α)
    (h : i < l.length) : (l.set i v).getD i d = v := by
  induction l generalizing i with
  | nil => simp at h
  | cons a t ih =>
    cases i with
    | zero => rfl
    | succ n => simpa using ih n (by simpa using h)

/-- `getD` after `set` at a different index. -/
theorem getD_set_ne {α : Type} (l : List α) (i j : ℕ) (v d : α)
    (h : i ≠ j) : (l.set i v).getD j d = l.getD j d := by
  induction l generalizing i j with
  | nil => rfl
  | cons a t ih =>
    cases i with
    | zero =>
      cases j with
      | zero => exact absurd rfl h
      | succ m => rfl
    | succ n =>
      cases j with
      | zero => rfl
      | succ m => simpa using ih n m (by omega)

/-- If `getD` with default `d` returns something other than `d`, the index is
in range. -/
theorem lt_length_of_getD_ne {α : Type} (l : List α) (i : ℕ) (d : α)
    (h : l.getD i d ≠ d) : i < l.length := by
  by_contra hge
  exact h (List.getD_eq_default l d (by omega))

/-- How `countP` changes under `set` at an in-range index. -/
theorem countP_set_add {α : Type} (l : List α) (i : ℕ) (v d : α)
    (p : α → Bool) (h : i < l.length) :
    (l.set i v).countP p + (if p (l.getD i d) then 1 else 0)
      = l.countP p + (if p v then 1 else 0) := by
  induction l generalizing i with
  | nil => simp at h
  | cons a t ih =>
    cases i with
    | zero =>
      simp only [List.set, List.getD_cons_zero, List.countP_cons]
      omega
    | succ n =>
      have hn : n < t.length := by simpa using h
      have := ih n hn
      simp only [List.set, List.getD_cons_succ, List.countP_cons]
      omega

/-! ### Invariants of the concurrent run -/

/-- Inductive invariant of the bounded-mode run: component counts are stable,
the channel never holds more than its capacity `L`, `totalRequestCount` is a
multiple of the batch size `R`, the ghost issued count exceeds
`totalRequestCount` by exactly `R` per lane whose atomic add is still
pending, and once any lane has returned the total has already reached
`L * R`. -/
def SysInv (L R : ℕ) (s : Sys) : Prop :=
  s.workers.length = L ∧
  s.lanes.length = L ∧
  s.pool ≤ L ∧
  R ∣ s.total ∧
  s.issued = s.total + R * s.lanes.countP (fun x => x == LaneSt.sentBatch) ∧
  ((∃ x ∈ s.lanes, x = LaneSt.done) → L * R ≤ s.total)

theorem sysInv_init (L R : ℕ) : SysInv L R (initSys L) := by
  refine ⟨by simp [initSys], by simp [initSys], by simp [initSys],
    ⟨0, by simp [initSys]⟩, ?_, ?_⟩
  · have hz : (List.replicate L LaneSt.idle).countP
        (fun x => x == LaneSt.sentBatch) = 0 := by
      rw [List.countP_eq_zero]
      intro a ha
      rw [List.eq_of_mem_replicate ha]
      simp
    simp [initSys, hz]
  · rintro ⟨x, hx, hd⟩
    subst hd
    simp only [initSys] at hx
    exact absurd (List.eq_of_mem_replicate hx) (by simp)

theorem sysInv_step (L R : ℕ) (s s' : Sys) (h : SysStep L R s s')
    (hi : SysInv L R s) : SysInv L R s' := by
  obtain ⟨hwl, hll, hpl, hdvd, hiss, hdone⟩ := hi
  cases h with
  | wCheckGo i hw hc he =>
    subst he
    exact ⟨by simpa using hwl, hll, hpl, hdvd, hiss, hdone⟩
  | wCheckStop i hw hc he =>
    subst he
    exact ⟨by simpa using hwl, hll, hpl, hdvd, hiss, hdone⟩
  | wRetry i hw he =>
    subst he
    exact ⟨hwl, hll, hpl, hdvd, hiss, hdone⟩
  | wValidate i hw he =>
    subst he
    exact ⟨by simpa using hwl, hll, hpl, hdvd, hiss, hdone⟩
  | wInsert i hw hp he =>
    subst he
    refine ⟨by simpa using hwl, hll, ?_, hdvd, hiss, hdone⟩
    dsimp only
    omega
  | lTake j hl hp he =>
    subst he
    have hj : j < s.lanes.length :=
      lt_length_of_getD_ne _ _ _ (by rw [hl]; simp)
    have hcnt := countP_set_add s.lanes j LaneSt.hasProxy LaneSt.done
      (fun x => x == LaneSt.sentBatch) hj
    rw [hl] at hcnt
    simp at hcnt
    refine ⟨hwl, by simpa using hll, ?_, hdvd, ?_, ?_⟩
    · dsimp only
      omega
    · dsimp only
      rw [hcnt]
      exact hiss
    · rintro ⟨x, hx, rfl⟩
      rcases List.mem_or_eq_of_mem_set hx with hmem | hne
      · exact hdone ⟨LaneSt.done, hmem, rfl⟩
      · exact absurd hne (by simp)
  | lClientFail j hl he =>
    subst he
    have hj : j < s.lanes.length :=
      lt_length_of_getD_ne _ _ _ (by rw [hl]; simp)
    have hcnt := countP_set_add s.lanes j LaneSt.idle LaneSt.done
      (fun x => x == LaneSt.sentBatch) hj
    rw [hl] at hcnt
    simp at hcnt
    refine ⟨hwl, by simpa using hll, hpl, hdvd, ?_, ?_⟩
    · dsimp only
      rw [hcnt]
      exact hiss
    · rintro ⟨x, hx, rfl⟩
      rcases List.mem_or_eq_of_mem_set hx with hmem | hne
      · exact hdone ⟨LaneSt.done, hmem, rfl⟩
      · exact absurd hne (by simp)
  | lBatch j hl he =>
    subst he
    have hj : j < s.lanes.length :=
      lt_length_of_getD_ne _ _ _ (by rw [hl]; simp)
    have hcnt := countP_set_add s.lanes j LaneSt.sentBatch LaneSt.done
      (fun x => x == LaneSt.sentBatch) hj
    rw [hl] at hcnt
    simp at hcnt
    refine ⟨hwl, by simpa using hll, hpl, hdvd, ?_, ?_⟩
    · dsimp only
      have hc1 : (s.lanes.set j LaneSt.sentBatch).countP
          (fun x => x == LaneSt.sentBatch)
          = s.lanes.countP (fun x => x == LaneSt.sentBatch) + 1 := by omega
      rw [hc1, Nat.mul_succ]
      omega
    · rintro ⟨x, hx, rfl⟩
      rcases List.mem_or_eq_of_mem_set hx with hmem | hne
      · exact hdone ⟨LaneSt.done, hmem, rfl⟩
      · exact absurd hne (by simp)
  | lAdd j hl he =>
    subst he
    have hj : j < s.lanes.length :=
      lt_length_of_getD_ne _ _ _ (by rw [hl]; simp)
    have hvf : ((if L * R ≤ s.total + R then LaneSt.done else LaneSt.idle)
        == LaneSt.sentBatch) = false := by
      split <;> rfl
    have hcnt := countP_set_add s.lanes j
      (if L * R ≤ s.total + R then LaneSt.done else LaneSt.idle) LaneSt.done
      (fun x => x == LaneSt.sentBatch) hj
    rw [hl] at hcnt
    simp [hvf] at hcnt
    refine ⟨hwl, by simpa using hll, hpl, dvd_add hdvd (dvd_refl R), ?_, ?_⟩
    · dsimp only
      have hc1 : s.lanes.countP (fun x => x == LaneSt.sentBatch)
          = (s.lanes.set j
              (if L * R ≤ s.total + R then LaneSt.done else LaneSt.idle)).countP
              (fun x => x == LaneSt.sentBatch) + 1 := by omega
      rw [hiss, hc1, Nat.mul_succ]
      omega
    · rintro ⟨x, hx, rfl⟩
      dsimp only
      rcases List.mem_or_eq_of_mem_set hx with hmem | hne
      · have := hdone ⟨LaneSt.done, hmem, rfl⟩
        omega
      · by_cases hcond : L * R ≤ s.total + R
        · exact hcond
        · rw [if_neg hcond] at hne
          exact absurd hne (by simp)

/-- Every reachable state of the bounded-mode run satisfies the invariant. -/
theorem sysInv_reach (L R : ℕ) (s : Sys)
    (h : Reaches L R (initSys L) s) : SysInv L R s := by
  induction h with
  | refl => exact sysInv_init L R
  | tail _ hstep ih => exact sysInv_step L R _ _ hstep ih

/-! ### A concrete racy interleaving, L = 2 lanes, R = 1 request per batch

Both workers pass the counter check at part_000:155 while the counter is
still below the lane count, so a third proxy is validated (the benign
over-count race of the validator pool).  The third proxy lets one lane run a
second batch, so the completed run issues 3 batches = 3 requests instead of
`L*R = 2`, and while worker 0 is waiting on the channel send of its second
proxy the system holds 3 validated proxies in flight. -/

/-- Reachable state with 2 proxies buffered in the full channel and a third
validated proxy in transit (worker 0 at the pending channel send). -/
def midSys : Sys :=
  ⟨[WorkerSt.inserting, WorkerSt.top], [LaneSt.idle, LaneSt.idle], 3, 0, 2, 0, 0⟩

/-- Completed state of the same run: all workers and lanes terminated,
`totalRequestCount = 3` and 3 requests issued. -/
def finSys : Sys :=
  ⟨[WorkerSt.done, WorkerSt.done], [LaneSt.done, LaneSt.done], 3, 0, 0, 3, 3⟩

theorem reachMid : Reaches 2 1 (initSys 2) midSys := by
  have t0 : SysStep 2 1 (initSys 2)
      ⟨[WorkerSt.validating, WorkerSt.top], [LaneSt.idle, LaneSt.idle], 0, 0, 0, 0, 0⟩ :=
    SysStep.wCheckGo _ _ 0 (by decide) (by decide) (by decide)
  have t1 : SysStep 2 1
      ⟨[WorkerSt.validating, WorkerSt.top], [LaneSt.idle, LaneSt.idle], 0, 0, 0, 0, 0⟩
      ⟨[WorkerSt.validating, WorkerSt.validating], [LaneSt.idle, LaneSt.idle], 0, 0, 0, 0, 0⟩ :=
    SysStep.wCheckGo _ _ 1 (by decide) (by decide) (by decide)
  have t2 : SysStep 2 1
      ⟨[WorkerSt.validating, WorkerSt.validating], [LaneSt.idle, LaneSt.idle], 0, 0, 0, 0, 0⟩
      ⟨[WorkerSt.inserting, WorkerSt.validating], [LaneSt.idle, LaneSt.idle], 1, 0, 0, 0, 0⟩ :=
    SysStep.wValidate _ _ 0 (by decide) (by decide)
  have t3 : SysStep 2 1
      ⟨[WorkerSt.inserting, WorkerSt.validating], [LaneSt.idle, LaneSt.idle], 1, 0, 0, 0, 0⟩
      ⟨[WorkerSt.top, WorkerSt.validating], [LaneSt.idle, LaneSt.idle], 1, 0, 1, 0, 0⟩ :=
    SysStep.wInsert _ _ 0 (by decide) (by decide) (by decide)
  have t4 : SysStep 2 1
      ⟨[WorkerSt.top, WorkerSt.validating], [LaneSt.idle, LaneSt.idle], 1, 0, 1, 0, 0⟩
      ⟨[WorkerSt.validating, WorkerSt.validating], [LaneSt.idle, LaneSt.idle], 1, 0, 1, 0, 0⟩ :=
    SysStep.wCheckGo _ _ 0 (by decide) (by decide) (by decide)
  have t5 : SysStep 2 1
      ⟨[WorkerSt.validating, WorkerSt.validating], [LaneSt.idle, LaneSt.idle], 1, 0, 1, 0, 0⟩
      ⟨[WorkerSt.validating, WorkerSt.inserting], [LaneSt.idle, LaneSt.idle], 2, 0, 1, 0, 0⟩ :=
    SysStep.wValidate _ _ 1 (by decide) (by decide)
  have t6 : SysStep 2 1
      ⟨[WorkerSt.validating, WorkerSt.inserting], [LaneSt.idle, LaneSt.idle], 2, 0, 1, 0, 0⟩
      ⟨[WorkerSt.validating, WorkerSt.top], [LaneSt.idle, LaneSt.idle], 2, 0, 2, 0, 0⟩ :=
    SysStep.wInsert _ _ 1 (by decide) (by decide) (by decide)
  have t7 : SysStep 2 1
      ⟨[WorkerSt.validating, WorkerSt.top], [LaneSt.idle, LaneSt.idle], 2, 0, 2, 0, 0⟩
      midSys :=
    SysStep.wValidate _ _ 0 (by decide) (by decide)
  exact ((((((((Relation.ReflTransGen.refl).tail t0).tail t1).tail t2).tail
    t3).tail t4).tail t5).tail t6).tail t7

theorem reachFin : Reaches 2 1 (initSys 2) finSys := by
  have t8 : SysStep 2 1 midSys
      ⟨[WorkerSt.inserting, WorkerSt.top], [LaneSt.hasProxy, LaneSt.idle], 3, 0, 1, 0, 0⟩ :=
    SysStep.lTake _ _ 0 (by decide) (by decide) (by decide)
  have t9 : SysStep 2 1
      ⟨[WorkerSt.inserting, WorkerSt.top], [LaneSt.hasProxy, LaneSt.idle], 3, 0, 1, 0, 0⟩
      ⟨[WorkerSt.top, WorkerSt.top], [LaneSt.hasProxy, LaneSt.idle], 3, 0, 2, 0, 0⟩ :=
    SysStep.wInsert _ _ 0 (by decide) (by decide) (by decide)
  have t10 : SysStep 2 1
      ⟨[WorkerSt.top, WorkerSt.top], [LaneSt.hasProxy, LaneSt.idle], 3, 0, 2, 0, 0⟩
      ⟨[WorkerSt.done, WorkerSt.top], [LaneSt.hasProxy, LaneSt.idle], 3, 0, 2, 0, 0⟩ :=
    SysStep.wCheckStop _ _ 0 (by decide) (by decide) (by decide)
  have t11 : SysStep 2 1
      ⟨[WorkerSt.done, WorkerSt.top], [LaneSt.hasProxy, LaneSt.idle], 3, 0, 2, 0, 0⟩
      ⟨[WorkerSt.done, WorkerSt.done], [LaneSt.hasProxy, LaneSt.idle], 3, 0, 2, 0, 0⟩ :=
    SysStep.wCheckStop _ _ 1 (by decide) (by decide) (by decide)
  have t12 : SysStep 2 1
      ⟨[WorkerSt.done, WorkerSt.done], [LaneSt.hasProxy, LaneSt.idle], 3, 0, 2, 0, 0⟩
      ⟨[WorkerSt.done, WorkerSt.done], [LaneSt.sentBatch, LaneSt.idle], 3, 0, 2, 0, 1⟩ :=
    SysStep.lBatch _ _ 0 (by decide) (by decide)
  have t13 : SysStep 2 1
      ⟨[WorkerSt.done, WorkerSt.done], [LaneSt.sentBatch, LaneSt.idle], 3, 0, 2, 0, 1⟩
      ⟨[WorkerSt.done, WorkerSt.done], [LaneSt.idle, LaneSt.idle], 3, 0, 2, 1, 1⟩ :=
    SysStep.lAdd _ _ 0 (by decide) (by decide)
  have t14 : SysStep 2 1
      ⟨[WorkerSt.done, WorkerSt.done], [LaneSt.idle, LaneSt.idle], 3, 0, 2, 1, 1⟩
      ⟨[WorkerSt.done, WorkerSt.done], [LaneSt.hasProxy, LaneSt.idle], 3, 0, 1, 1, 1⟩ :=
    SysStep.lTake _ _ 0 (by decide) (by decide) (by decide)
  have t15 : SysStep 2 1
      ⟨[WorkerSt.done, WorkerSt.done], [LaneSt.hasProxy, LaneSt.idle], 3, 0, 1, 1, 1⟩
      ⟨[WorkerSt.done, WorkerSt.done], [LaneSt.hasProxy, LaneSt.hasProxy], 3, 0, 0, 1, 1⟩ :=
    SysStep.lTake _ _ 1 (by decide) (by decide) (by decide)
  have t16 : SysStep 2 1
      ⟨[WorkerSt.done, WorkerSt.done], [LaneSt.hasProxy, LaneSt.hasProxy], 3, 0, 0, 1, 1⟩
      ⟨[WorkerSt.done, WorkerSt.done], [LaneSt.sentBatch, LaneSt.hasProxy], 3, 0, 0, 1, 2⟩ :=
    SysStep.lBatch _ _ 0 (by decide) (by decide)
  have t17 : SysStep 2 1
      ⟨[WorkerSt.done, WorkerSt.done], [LaneSt.sentBatch, LaneSt.hasProxy], 3, 0, 0, 1, 2⟩
      ⟨[WorkerSt.done, WorkerSt.done], [LaneSt.sentBatch, LaneSt.sentBatch], 3, 0, 0, 1, 3⟩ :=
    SysStep.lBatch _ _ 1 (by decide) (by decide)
  have t18 : SysStep 2 1
      ⟨[WorkerSt.done, WorkerSt.done], [LaneSt.sentBatch, LaneSt.sentBatch], 3, 0, 0, 1, 3⟩
      ⟨[WorkerSt.done, WorkerSt.done], [LaneSt.done, LaneSt.sentBatch], 3, 0, 0, 2, 3⟩ :=
    SysStep.lAdd _ _ 0 (by decide) (by decide)
  have t19 : SysStep 2 1
      ⟨[WorkerSt.done, WorkerSt.done], [LaneSt.done, LaneSt.sentBatch], 3, 0, 0, 2, 3⟩
      finSys :=
    SysStep.lAdd _ _ 1 (by decide) (by decide)
  exact ((((((((((((reachMid).tail t8).tail t9).tail t10).tail t11).tail
    t12).tail t13).tail t14).tail t15).tail t16).tail t17).tail t18).tail t19

/-- Claim C2 (amended): once a bounded-mode run completes (every lane has
returned), the number of requests issued equals `totalRequestCount`, is at
least `L * R`, and is a multiple of the batch size `R`.  The exact equality
`= L * R` claimed by the spec does not hold in general: the validator
over-count race can feed extra proxies to the lanes, and a lane only checks
the budget after sending a full batch (part_000:203-214). -/
theorem c2_theorem (L R : ℕ) (s : Sys) (hL : 0 < L)
    (hr : Reaches L R (initSys L) s)
    (hdone : ∀ x ∈ s.lanes, x = LaneSt.done) :
    s.issued = s.total ∧ L * R ≤ s.issued ∧ R ∣ s.issued := by
  obtain ⟨hwl, hll, hpl, hdvd, hiss, hdn⟩ := sysInv_reach L R s hr
  have hcz : s.lanes.countP (fun x => x == LaneSt.sentBatch) = 0 := by
    rw [List.countP_eq_zero]
    intro a ha
    rw [hdone a ha]
    simp
  have hne : s.lanes ≠ [] := by
    intro hnil
    rw [hnil] at hll
    simp at hll
    omega
  obtain ⟨y, hy⟩ := List.exists_mem_of_ne_nil s.lanes hne
  have hge : L * R ≤ s.total := hdn ⟨y, hy, hdone y hy⟩
  have heq : s.issued = s.total := by rw [hiss, hcz]; ring
  exact ⟨heq, by omega, heq ▸ hdvd⟩

/-- Witness for `c2_theorem`: a serial run with one lane and one request per
batch completes with exactly one issued request. -/
theorem c2_witness :
    (⟨[WorkerSt.done], [LaneSt.done], 1, 0, 0, 1, 1⟩ : Sys).issued
        = (⟨[WorkerSt.done], [LaneSt.done], 1, 0, 0, 1, 1⟩ : Sys).total ∧
      1 * 1 ≤ (⟨[WorkerSt.done], [LaneSt.done], 1, 0, 0, 1, 1⟩ : Sys).issued ∧
      1 ∣ (⟨[WorkerSt.done], [LaneSt.done], 1, 0, 0, 1, 1⟩ : Sys).issued := by
  have u0 : SysStep 1 1 (initSys 1)
      ⟨[WorkerSt.validating], [LaneSt.idle], 0, 0, 0, 0, 0⟩ :=
    SysStep.wCheckGo _ _ 0 (by decide) (by decide) (by decide)
  have u1 : SysStep 1 1 ⟨[WorkerSt.validating], [LaneSt.idle], 0, 0, 0, 0, 0⟩
      ⟨[WorkerSt.inserting], [LaneSt.idle], 1, 0, 0, 0, 0⟩ :=
    SysStep.wValidate _ _ 0 (by decide) (by decide)
  have u2 : SysStep 1 1 ⟨[WorkerSt.inserting], [LaneSt.idle], 1, 0, 0, 0, 0⟩
      ⟨[WorkerSt.top], [LaneSt.idle], 1, 0, 1, 0, 0⟩ :=
    SysStep.wInsert _ _ 0 (by decide) (by decide) (by decide)
  have u3 : SysStep 1 1 ⟨[WorkerSt.top], [LaneSt.idle], 1, 0, 1, 0, 0⟩
      ⟨[WorkerSt.done], [LaneSt.idle], 1, 0, 1, 0, 0⟩ :=
    SysStep.wCheckStop _ _ 0 (by decide) (by decide) (by decide)
  have u4 : SysStep 1 1 ⟨[WorkerSt.done], [LaneSt.idle], 1, 0, 1, 0, 0⟩
      ⟨[WorkerSt.done], [LaneSt.hasProxy], 1, 0, 0, 0, 0⟩ :=
    SysStep.lTake _ _ 0 (by decide) (by decide) (by decide)
  have u5 : SysStep 1 1 ⟨[WorkerSt.done], [LaneSt.hasProxy], 1, 0, 0, 0, 0⟩
      ⟨[WorkerSt.done], [LaneSt.sentBatch], 1, 0, 0, 0, 1⟩ :=
    SysStep.lBatch _ _ 0 (by decide) (by decide)
  have u6 : SysStep 1 1 ⟨[WorkerSt.done], [LaneSt.sentBatch], 1, 0, 0, 0, 1⟩
      ⟨[WorkerSt.done], [LaneSt.done], 1, 0, 0, 1, 1⟩ :=
    SysStep.lAdd _ _ 0 (by decide) (by decide)
  exact c2_theorem 1 1 _ (by decide)
    ((((((((Relation.ReflTransGen.refl).tail u0).tail u1).tail u2).tail
      u3).tail u4).tail u5).tail u6)
    (by decide)

/-- Counterexample to claim C2 as stated: a completed bounded-mode run with
`L = 2` lanes and `R = 1` request per lane in which 3 requests were issued,
not `L * R = 2`.  The two workers both pass the counter check of
part_000:155 before either validates, a third proxy is validated, and lane 0
sends a second full batch before its budget check at part_000:212 runs. -/
theorem c2_counterexample :
    Reaches 2 1 (initSys 2) finSys ∧
    (∀ x ∈ finSys.lanes, x = LaneSt.done) ∧
    finSys.issued = 3 ∧ ¬ finSys.issued = 2 * 1 := by
  exact ⟨reachFin, by decide, by decide, by decide⟩

/-- Claim C4 (amended): in every reachable state of the bounded-mode run the
number of proxies BUFFERED in the `proxiesPool` channel never exceeds the
configured lane count `L` (the channel capacity, part_000:31).  The claim's
stronger in-flight bound is refuted by `c4_counterexample`. -/
theorem c4_theorem (L R : ℕ) (s : Sys)
    (hr : Reaches L R (initSys L) s) : s.pool ≤ L :=
  (sysInv_reach L R s hr).2.2.1

/-- Witness for `c4_theorem` at the initial state of a one-lane run. -/
theorem c4_witness : (initSys 1).pool ≤ 1 :=
  c4_theorem 1 1 (initSys 1) Relation.ReflTransGen.refl

/-- Counterexample to claim C4 as stated: a reachable state of the `L = 2`
run holding 3 validated proxies in flight — 2 buffered in the full channel
plus 1 in transit between its validator (success counter already
incremented, part_000:173) and the pending channel send (part_000:179).
The in-flight count therefore exceeds the configured lane count. -/
theorem c4_counterexample :
    Reaches 2 1 (initSys 2) midSys ∧ inFlight midSys = 3 ∧ 2 < inFlight midSys := by
  exact ⟨reachMid, by decide, by decide⟩

/-- Claim C5: a validator worker that observes the global success counter at
or above the configured lane count stops.  Part 1 (sequential model): if the
counter is already `≥ L` at the outer-loop check, the worker terminates
immediately, consuming no candidates and changing nothing but its stopped
flag.  Part 2 (concurrent model): any step taken from a state in which
worker `i` sits at the outer-loop check with the counter `≥ L` leaves worker
`i` either still at the check (another goroutine moved) or terminated — the
worker can never re-enter the candidate loop. -/
theorem c5_theorem :
    (∀ (L : ℕ) (probeOk : String → Bool) (resolve : String → String)
        (draws : List String) (s : WState), L ≤ s.success →
        worker L probeOk resolve draws s = { s with stopped := true }) ∧
    (∀ (L R : ℕ) (s s' : Sys) (i : ℕ), SysStep L R s s' →
        s.workers.getD i WorkerSt.done = WorkerSt.top → L ≤ s.success →
        s'.workers.getD i WorkerSt.done = WorkerSt.top ∨
          s'.workers.getD i WorkerSt.done = WorkerSt.done) := by
  constructor
  · intro L probeOk resolve draws s hs
    unfold worker
    rw [if_pos hs]
  · intro L R s s' i hstep hw hc
    cases hstep with
    | wCheckGo k hwk hck he =>
      subst he
      by_cases hik : k = i
      · subst hik
        omega
      · left
        dsimp only
        rw [getD_set_ne _ _ _ _ _ hik]
        exact hw
    | wCheckStop k hwk hck he =>
      subst he
      by_cases hik : k = i
      · subst hik
        right
        dsimp only
        have hk : k < s.workers.length := lt_length_of_getD_ne _ _ _ (by rw [hwk]; simp)
        rw [getD_set_self _ _ _ _ hk]
      · left
        dsimp only
        rw [getD_set_ne _ _ _ _ _ hik]
        exact hw
    | wRetry k hwk he =>
      subst he
      exact Or.inl hw
    | wValidate k hwk he =>
      subst he
      by_cases hik : k = i
      · subst hik
        rw [hw] at hwk
        exact absurd hwk (by simp)
      · left
        dsimp only
        rw [getD_set_ne _ _ _ _ _ hik]
        exact hw
    | wInsert k hwk hpk he =>
      subst he
      by_cases hik : k = i
      · subst hik
        rw [hw] at hwk
        exact absurd hwk (by simp)
      · left
        dsimp only
        rw [getD_set_ne _ _ _ _ _ hik]
        exact hw
    | lTake k hlk hpk he =>
      subst he
      exact Or.inl hw
    | lClientFail k hlk he =>
      subst he
      exact Or.inl hw
    | lBatch k hlk he =>
      subst he
      exact Or.inl hw
    | lAdd k hlk he =>
      subst he
      exact Or.inl hw

/-- Witness for `c5_theorem`: a worker seeing the counter at the lane count
stops in both models. -/
theorem c5_witness :
    worker 1 (fun _ => true) (fun _ => egressIP) [proxyA]
        ⟨[], 1, 0, [], false⟩ = ⟨[], 1, 0, [], true⟩ ∧
    ((⟨[WorkerSt.done], [LaneSt.idle], 1, 0, 1, 0, 0⟩ : Sys).workers.getD 0
          WorkerSt.done = WorkerSt.top ∨
      (⟨[WorkerSt.done], [LaneSt.idle], 1, 0, 1, 0, 0⟩ : Sys).workers.getD 0
          WorkerSt.done = WorkerSt.done) := by
  refine ⟨c5_theorem.1 1 _ _ _ _ (by decide), ?_⟩
  exact c5_theorem.2 1 1 ⟨[WorkerSt.top], [LaneSt.idle], 1, 0, 1, 0, 0⟩
    ⟨[WorkerSt.done], [LaneSt.idle], 1, 0, 1, 0, 0⟩ 0
    (SysStep.wCheckStop _ _ 0 (by decide) (by decide) (by decide))
    (by decide) (by decide)

/-! ## Effects model of sendRequest (part_000:281-351)

`sendRequest` is modelled as a function from the outcomes of its external
calls to the effects it performs.  `SendEnv` gives those outcomes:
`buildOk` = `http.NewRequestWithContext` returned no error (part_000:298),
`doErr` = `client.Do` returned an error (part_000:308), `readErr` =
`io.ReadAll` failed (part_000:325), `bodyLen` = `len(body)` on success.
The control flow translated:

* part_000:286 `onRequest()` always runs first (stats.go:58-61 increments
  `totalRequests` and `requestPerMinute`);
* part_000:298-303: build failure → log, `failureCount++`, return (note: no
  progress-bar increment on this path);
* part_000:309-312: with `fireAndForget` set, the bar is incremented and the
  function returns immediately after `client.Do`, before the send error is
  examined — nothing is logged, recorded or counted;
* part_000:315-321: transport error → log, `failureCount++`, bar increment,
  return (nothing appended to the slices);
* part_000:326-333: read error → log, `failureCount++`, no size appended;
  control then FALLS THROUGH to part_000:341-350: duration and summary
  appended, the "Successful request" line logged, `successCount++`, bar
  increment;
* success → size, duration and summary appended, success line logged,
  `successCount++`, bar increment. -/

/-- One `log.Printf` call inside `sendRequest`, by call site. -/
inductive LogEvent
  | buildFail | transportFail | readFail | successLine
  deriving DecidableEq, Repr

/-- Outcomes of the external calls made by one `sendRequest` invocation. -/
structure SendEnv where
  buildOk : Bool
  doErr : Bool
  readErr : Bool
  bodyLen : ℕ
  deriving DecidableEq, Repr

/-- The effects of one `sendRequest` invocation: counter increments, the
number of progress-bar increments, the entries appended to the caller's
`durations` / `sizes` / `summaries` slices (durations and summaries by
count, sizes by value), and the log lines written. -/
structure SendEffects where
  totalRequests : ℕ
  requestPerMinute : ℕ
  successCount : ℕ
  failureCount : ℕ
  barIncrements : ℕ
  durationsAppended : ℕ
  sizesAppended : List ℕ
  summariesAppended : ℕ
  logs : List LogEvent
  deriving DecidableEq, Repr

/-- `sendRequest` (part_000:281-351) as an effects function.  Branch order
matches the source: build failure, then the `fireAndForget` early return,
then the transport-error return, then the read-error fall-through, then the
clean path. -/
def sendRequest (faf : Bool) (env : SendEnv) : SendEffects :=
  if env.buildOk = false then
    ⟨1, 1, 0, 1, 0, 0, [], 0, [LogEvent.buildFail]⟩
  else if faf then
    ⟨1, 1, 0, 0, 1, 0, [], 0, []⟩
  else if env.doErr then
    ⟨1, 1, 0, 1, 1, 0, [], 0, [LogEvent.transportFail]⟩
  else if env.readErr then
    ⟨1, 1, 1, 1, 1, 1, [], 1, [LogEvent.readFail, LogEvent.successLine]⟩
  else
    ⟨1, 1, 1, 0, 1, 1, [env.bodyLen], 1, [LogEvent.successLine]⟩

/-- Claim C3 (amended): every `sendRequest` call counts as exactly one
attempt (`totalRequests` advances by one), and the progress bar is
incremented exactly once whenever the request was successfully constructed —
on success, transport failure/timeout, body-read failure, and in
fire-and-forget mode — but ZERO times when request construction fails
(the early return at part_000:299-303 skips `bar.Increment()`). -/
theorem c3_theorem (faf : Bool) (env : SendEnv) :
    (sendRequest faf env).totalRequests = 1 ∧
    (sendRequest faf env).barIncrements = (if env.buildOk then 1 else 0) := by
  obtain ⟨b, d, r, n⟩ := env
  cases b <;> cases faf <;> cases d <;> cases r <;> simp [sendRequest]

/-- Counterexample to claim C3 as stated: on request-construction failure
the attempt is counted (`totalRequests = 1`) but the progress counter is not
advanced at all, contradicting "incremented exactly once ... in all outcome
cases". -/
theorem c3_counterexample :
    (sendRequest false ⟨false, false, false, 0⟩).totalRequests = 1 ∧
    (sendRequest false ⟨false, false, false, 0⟩).barIncrements = 0 := by
  decide

/-- Claim C7: for every request actually sent (request construction
succeeded) while `fireAndForget` is enabled, nothing is recorded — no
duration entry, no size entry, no summary entry, no success/failure count,
no log line — yet the progress bar still advances by one. -/
theorem c7_theorem (env : SendEnv) (hb : env.buildOk = true) :
    (sendRequest true env).durationsAppended = 0 ∧
    (sendRequest true env).sizesAppended = [] ∧
    (sendRequest true env).summariesAppended = 0 ∧
    (sendRequest true env).successCount = 0 ∧
    (sendRequest true env).failureCount = 0 ∧
    (sendRequest true env).logs = [] ∧
    (sendRequest true env).barIncrements = 1 := by
  obtain ⟨b, d, r, n⟩ := env
  subst hb
  simp [sendRequest]

/-- Witness for `c7_theorem`: a fire-and-forget send whose transport call
fails and whose read would fail still records nothing and advances the bar
once. -/
theorem c7_witness :
    (sendRequest true ⟨true, true, true, 5⟩).durationsAppended = 0 ∧
    (sendRequest true ⟨true, true, true, 5⟩).sizesAppended = [] ∧
    (sendRequest true ⟨true, true, true, 5⟩).summariesAppended = 0 ∧
    (sendRequest true ⟨true, true, true, 5⟩).successCount = 0 ∧
    (sendRequest true ⟨true, true, true, 5⟩).failureCount = 0 ∧
    (sendRequest true ⟨true, true, true, 5⟩).logs = [] ∧
    (sendRequest true ⟨true, true, true, 5⟩).barIncrements = 1 :=
  c7_theorem ⟨true, true, true, 5⟩ rfl

/-- Claim C10: with `fireAndForget` enabled, a transport error from
`client.Do` is never counted as a failure and never logged: `sendRequest`
returns right after incrementing the progress bar (part_000:309-312),
before the send error is examined. -/
theorem c10_theorem (env : SendEnv) (hb : env.buildOk = true)
    (hd : env.doErr = true) :
    (sendRequest true env).failureCount = 0 ∧
    (sendRequest true env).logs = [] ∧
    (sendRequest true env).barIncrements = 1 := by
  obtain ⟨b, d, r, n⟩ := env
  subst hb
  simp [sendRequest]

/-- Witness for `c10_theorem` at a concrete failing transport call. -/
theorem c10_witness :
    (sendRequest true ⟨true, true, false, 0⟩).failureCount = 0 ∧
    (sendRequest true ⟨true, true, false, 0⟩).logs = [] ∧
    (sendRequest true ⟨true, true, false, 0⟩).barIncrements = 1 :=
  c10_theorem ⟨true, true, false, 0⟩ rfl rfl

/-! ## Model of createProxyClient (part_001:28-93)

`createProxyClient` first polls the shared `httpClientPool` channel with a
non-blocking `select` (part_001:30-34): if a client is buffered it is
returned at once and NOTHING else runs — the proxy URL is never normalized,
parsed or dialed.  Only with an empty pool does it normalize the address to
a `socks5://` URL (part_001:37-39), parse it (part_001:42-46, error on
malformed URL), try to construct a SOCKS5 dialer up to `retryCount` times
stopping at the first success (part_001:60-69, error if every attempt
fails), and finally build the transport and client, push the new client
into the pool (part_001:90) and return it.

Clients are abstracted to numeric identities; the pool channel is the list
of buffered clients.  `ClientEnv` is the oracle for the external calls:
`parseOk u` = `url.Parse(u)` succeeds, `dialOk i` = the `i`-th
`proxy.SOCKS5` attempt succeeds. -/

/-- Abstract client identity (stands for an `*http.Client`). -/
def Client : Type := ℕ

/-- The identity of a freshly constructed client. -/
def newClientId : Client := (0 : ℕ)

/-- Outcomes of the external calls of `createProxyClient`. -/
structure ClientEnv where
  parseOk : String → Bool
  dialOk : ℕ → Bool

/-- The two error returns of `createProxyClient`. -/
inductive CPCError
  | parseError | dialError
  deriving DecidableEq, Repr

/-- part_001:37-39: prepend `socks5://` unless the address already starts
with it. -/
def normalizeProxyURL (u : String) : String :=
  if u.startsWith "socks5://" then u else "socks5://" ++ u

/-- part_001:60-65: the retry loop succeeds iff one of the first `k` dialer
attempts succeeds (the loop breaks at the first success). -/
def dialerWithin (dialOk : ℕ → Bool) (k : ℕ) : Bool :=
  (List.range k).any dialOk

/-- `createProxyClient` (part_001:28-93): returns the acquired client (or an
error) together with the new contents of the `httpClientPool` channel. -/
def createProxyClient (env : ClientEnv) (pool : List Client)
    (proxyURL : String) : Except CPCError Client × List Client :=
  match pool with
  | c :: rest => (Except.ok c, rest)
  | [] =>
    if env.parseOk (normalizeProxyURL proxyURL) = false then
      (Except.error CPCError.parseError, [])
    else if dialerWithin env.dialOk retryCount = false then
      (Except.error CPCError.dialError, [])
    else
      (Except.ok newClientId, [newClientId])

/-- Whether an acquisition result is an error. -/
def isErr {ε α : Type} : Except ε α → Bool
  | Except.error _ => true
  | Except.ok _ => false

/-- Claim C6 (amended): client acquisition returns an error exactly when the
shared client pool is EMPTY and either the (normalized) proxy URL is
malformed or all `retryCount` dialer-construction attempts fail; and on the
error path the calling lane (part_000:192-196) logs and goes back to
acquiring a fresh proxy, abandoning the erroring proxy for this iteration
instead of retrying it. -/
theorem c6_theorem :
    (∀ (env : ClientEnv) (pool : List Client) (u : String),
        isErr (createProxyClient env pool u).1 = true ↔
          pool = [] ∧ (env.parseOk (normalizeProxyURL u) = false ∨
            dialerWithin env.dialOk retryCount = false)) ∧
    (∀ (L R : ℕ) (s : Sys) (j : ℕ),
        s.lanes.getD j LaneSt.done = LaneSt.hasProxy →
        SysStep L R s { s with lanes := s.lanes.set j LaneSt.idle }) := by
  constructor
  · intro env pool u
    match pool with
    | c :: rest => simp [createProxyClient, isErr]
    | [] =>
      by_cases hp : env.parseOk (normalizeProxyURL u) = false
      · simp [createProxyClient, hp, isErr]
      · by_cases hd : dialerWithin env.dialOk retryCount = false
        · simp [createProxyClient, hp, hd, isErr]
        · simp [createProxyClient, hp, hd, isErr]
  · intro L R s j hl
    exact SysStep.lClientFail _ _ j hl rfl

/-- Witness for `c6_theorem`: with an empty pool and a parse oracle that
rejects everything, acquisition errors out; and a lane holding a proxy can
step back to `idle` on that error. -/
theorem c6_witness :
    isErr (createProxyClient ⟨fun _ => false, fun _ => false⟩ [] "x").1 = true ∧
    SysStep 2 1 ⟨[], [LaneSt.hasProxy], 0, 0, 0, 0, 0⟩
      ⟨[], [LaneSt.idle], 0, 0, 0, 0, 0⟩ :=
  ⟨(c6_theorem.1 ⟨fun _ => false, fun _ => false⟩ [] "x").mpr
      ⟨rfl, Or.inl rfl⟩,
    c6_theorem.2 2 1 ⟨[], [LaneSt.hasProxy], 0, 0, 0, 0, 0⟩ 0 rfl⟩

/-- Counterexample to claim C6 as stated: when the shared client pool is
non-empty, acquisition succeeds even though the proxy URL is malformed (the
parse oracle rejects every string) and every dialer attempt would fail —
so "fails with an error exactly when the proxy URL is malformed or dialer
construction still fails after retryCount attempts" is false without the
empty-pool condition. -/
theorem c6_counterexample :
    (createProxyClient ⟨fun _ => false, fun _ => false⟩ [(7 : ℕ)] "bad url").1
      = Except.ok (7 : ℕ) ∧
    (fun _ => false : String → Bool) (normalizeProxyURL "bad url") = false :=
  ⟨rfl, rfl⟩

/-- Claim C9: whenever the shared client pool is non-empty,
`createProxyClient` immediately returns the buffered client with no error —
for EVERY parse/dial oracle and every proxy address, malformed or not — and
removes that client from the pool.  The address is never parsed or
validated on this path (the result does not depend on `env` or `u`). -/
theorem c9_theorem (env : ClientEnv) (u : String) (c : Client)
    (rest : List Client) :
    createProxyClient env (c :: rest) u = (Except.ok c, rest) := rfl

/-! ## Query string construction (part_000:283, rng at request file 72-85) -/

/-- Model of Go's `rand.Intn(n)` for a positive bound `n`: the raw draw from
the random source reduced into `[0, n)`. -/
def intn (n : ℤ) (draw : ℕ) : ℤ := (draw : ℤ) % n

/-- `rng` (request file, lines 72-85): with more than one variadic argument
the first two give the inclusive range, otherwise the defaults are
`[0, 1000000]`; the result is `rand.Intn(mx-mn+1)+mn` formatted in decimal
(`fmt.Sprintf` with the integer verb). -/
def rng (args : List ℤ) (draw : ℕ) : String :=
  let mn : ℤ := if args.length > 1 then args.getD 0 0 else 0
  let mx : ℤ := if args.length > 1 then args.getD 1 0 else 1000000
  toString (intn (mx - mn + 1) draw + mn)

/-- part_000:283: `param := parameters[rand.Intn(len(parameters))] + "=" +
rng()`.  `pick` is the raw draw selecting the parameter index. -/
def mkParam (parameters : List String) (pick draw : ℕ) : String :=
  parameters.getD (pick % parameters.length) "" ++ "=" ++ rng [] draw

/-- `rng` with no arguments produces the decimal digits of `draw mod
1000001`, a number in the default range `[0, 1000000]`. -/
theorem rng_default (draw : ℕ) :
    rng [] draw = Nat.repr (draw % 1000001) := by
  have h : ((draw : ℤ) % 1000001 + 0) = ((draw % 1000001 : ℕ) : ℤ) := by
    push_cast
    omega
  show toString (intn ((1000000 : ℤ) - 0 + 1) draw + 0) = _
  unfold intn
  rw [show ((1000000 : ℤ) - 0 + 1) = 1000001 from rfl, h]
  rfl

/-- Claim C8: with parameter list `["height=1"]` and the default numeric
token range, every constructed query string is `height=1=` followed by the
decimal digits of an integer between 0 and 1000000, for every random draw
of the parameter index and of the numeric token. -/
theorem c8_theorem (pick draw : ℕ) :
    ∃ n : ℕ, n ≤ 1000000 ∧
      mkParam ["height=1"] pick draw = "height=1=" ++ Nat.repr n := by
  refine ⟨draw % 1000001, ?_, ?_⟩
  · have h := Nat.mod_lt draw (show 0 < 1000001 by norm_num)
    omega
  · unfold mkParam
    rw [rng_default]
    rw [show (["height=1"] : List String).length = 1 from rfl, Nat.mod_one]
    rw [show (["height=1"] : List String).getD 0 "" = "height=1" from rfl]
    rw [show "height=1" ++ "=" = "height=1=" from rfl]
